import Mathlib

/- Shallow embedding of the net-rewire repository:
   pktparse.c (the IPv4/TCP packet classifier) and tunnel_server.c (the
   length-prefixed framing protocol and the per-client session of the
   tunnel server).

   Bytes are Nat values below 256; buffers are lists of bytes.  Multi-byte
   fields (addresses, ports, the frame length word) are kept verbatim in
   wire order and represented as the big-endian value of their wire bytes;
   the source likewise stores them without byte-order conversion. -/

namespace NetRewire

/-- Output structure of pkt_parse (struct pkt_info in pktparse.h). -/
structure pkt_info where
  is_ipv4 : Bool
  is_tcp : Bool
  ip_src : Nat
  ip_dst : Nat
  tcp_src : Nat
  tcp_dst : Nat
  ip_header_len : Nat
  tcp_header_len : Nat
deriving Repr, DecidableEq

/-- The all-zero pkt_info written by the memset at the entry of pkt_parse. -/
def pkt_info.zero : pkt_info := ⟨false, false, 0, 0, 0, 0, 0, 0⟩

/-- Big-endian value of two wire bytes. -/
def be16 (a b : Nat) : Nat := a * 256 + b

/-- Big-endian value of four wire bytes. -/
def be32 (a b c d : Nat) : Nat := ((a * 256 + b) * 256 + c) * 256 + d

/-- pkt_parse from pktparse.c, embedded over byte lists.  Every byte access
    goes through the total lookup buf[i]?; a none anywhere (the wildcard
    branches below) marks an out-of-bounds read, which the safety theorem
    proves unreachable.  The result pairs the C return code (0 = not
    parsed, 1 = parsed) with the output structure.  ip_v is the high
    nibble and ip_hl the low nibble of wire byte 0; th_off is the high
    nibble of wire byte 12 of the TCP header; IPPROTO_TCP is 6. -/
def pkt_parse (buf : List Nat) : Option (Nat × pkt_info) :=
  -- if (len < sizeof(struct ip)) return 0;
  if buf.length < 20 then some (0, pkt_info.zero)
  else match buf[0]? with
  | none => none
  | some b0 =>
    -- if ((iph->ip_v) != 4) return 0;
    if b0 / 16 ≠ 4 then some (0, pkt_info.zero)
    else
      -- int ihl = iph->ip_hl * 4; if (len < ihl) return 0;
      let ihl := b0 % 16 * 4
      if buf.length < ihl then some (0, pkt_info.zero)
      else match buf[12]?, buf[13]?, buf[14]?, buf[15]?,
                 buf[16]?, buf[17]?, buf[18]?, buf[19]?, buf[9]? with
      | some s0, some s1, some s2, some s3,
        some d0, some d1, some d2, some d3, some p =>
        -- info->is_ipv4 = 1; info->ip_header_len = ihl;
        -- info->ip_src = iph->ip_src.s_addr; info->ip_dst = iph->ip_dst.s_addr;
        let info1 : pkt_info :=
          { pkt_info.zero with
            is_ipv4 := true, ip_header_len := ihl,
            ip_src := be32 s0 s1 s2 s3, ip_dst := be32 d0 d1 d2 d3 }
        -- if (iph->ip_p != IPPROTO_TCP) return 1;
        if p ≠ 6 then some (1, info1)
        -- if (len < ihl + sizeof(struct tcphdr)) return 1;
        else if buf.length < ihl + 20 then some (1, info1)
        else match buf[ihl]?, buf[ihl+1]?, buf[ihl+2]?, buf[ihl+3]?,
                   buf[ihl+12]? with
        | some sp0, some sp1, some dp0, some dp1, some offb =>
          -- info->is_tcp = 1; info->tcp_header_len = tcph->th_off * 4;
          -- info->tcp_src = tcph->th_sport; info->tcp_dst = tcph->th_dport;
          some (1, { info1 with
            is_tcp := true,
            tcp_header_len := offb / 16 * 4,
            tcp_src := be16 sp0 sp1, tcp_dst := be16 dp0 dp1 })
        | _, _, _, _, _ => none
      | _, _, _, _, _, _, _, _, _ => none

/-- The IPv4/TCP SYN sample packet of pktparse_test.c (40 bytes). -/
def testPacket : List Nat :=
  [0x45, 0x00, 0x00, 0x3c, 0x00, 0x01, 0x00, 0x00, 0x40, 0x06, 0x00, 0x00,
   0xc0, 0xa8, 0x01, 0x01,
   0xc0, 0xa8, 0x01, 0x02,
   0x04, 0xd2, 0x00, 0x19,
   0x00, 0x00, 0x00, 0x00, 0x00, 0x00, 0x00, 0x00,
   0x50, 0x02, 0x20, 0x00, 0x00, 0x00, 0x00, 0x00]

/-- The UDP sample packet of pktparse_test.c: the same IPv4 header with
    protocol byte 17 (28 bytes). -/
def udpPacket : List Nat :=
  [0x45, 0x00, 0x00, 0x3c, 0x00, 0x01, 0x00, 0x00, 0x40, 0x11, 0x00, 0x00,
   0xc0, 0xa8, 0x01, 0x01, 0xc0, 0xa8, 0x01, 0x02,
   0x00, 0x00, 0x00, 0x00, 0x00, 0x00, 0x00, 0x00]

/-- A 20-byte buffer with version 4, IP header-length field 0 and
    protocol TCP; its (overlapping) TCP header starts at offset 0 and has
    data-offset field 0. -/
def lowHLPacket : List Nat :=
  [0x40, 0, 0, 0, 0, 0, 0, 0, 0, 6, 0, 0, 0, 0, 0, 0, 0, 0, 0, 0]

/-- A 20-byte buffer with version 4, IP header-length field 3 and
    protocol UDP. -/
def hl3Packet : List Nat :=
  [0x43, 0, 0, 0, 0, 0, 0, 0, 0, 17, 0, 0, 0, 0, 0, 0, 0, 0, 0, 0]

/-- Total view of byte i of a buffer (0 when out of bounds; the lemmas
    below only use it at in-bounds indices). -/
def byteAt (buf : List Nat) (i : Nat) : Nat := buf.getD i 0

/-- The IP-level part of the output structure, expressed through the total
    byte view. -/
def ipInfoOf (buf : List Nat) : pkt_info :=
  { is_ipv4 := true, is_tcp := false,
    ip_src := be32 (byteAt buf 12) (byteAt buf 13) (byteAt buf 14) (byteAt buf 15),
    ip_dst := be32 (byteAt buf 16) (byteAt buf 17) (byteAt buf 18) (byteAt buf 19),
    tcp_src := 0, tcp_dst := 0,
    ip_header_len := byteAt buf 0 % 16 * 4, tcp_header_len := 0 }

/-- The full output structure for the TCP path. -/
def tcpInfoOf (buf : List Nat) : pkt_info :=
  let ihl := byteAt buf 0 % 16 * 4
  { ipInfoOf buf with
    is_tcp := true,
    tcp_src := be16 (byteAt buf ihl) (byteAt buf (ihl + 1)),
    tcp_dst := be16 (byteAt buf (ihl + 2)) (byteAt buf (ihl + 3)),
    tcp_header_len := byteAt buf (ihl + 12) / 16 * 4 }

/- ----------------------------------------------------------------------
   tunnel_server.c: the length-prefixed framing protocol and the
   client-to-interface decode step of handle_client.

   A byte stream delivered by a stream socket is modelled as a list of
   chunks: chunk i holds the bytes available at the i-th recv call.  A
   single recv call returns up to the requested count from the data
   available at that moment and never waits for more. -/

/-- The 4 wire bytes of htonl n (network byte order), for n below 2^32. -/
def toBE32 (n : Nat) : List Nat :=
  [n / 16777216 % 256, n / 65536 % 256, n / 256 % 256, n % 256]

/-- Host value ntohl yields from wire bytes (big-endian assembly). -/
def be32v (l : List Nat) : Nat := l.foldl (fun a b => a * 256 + b) 0

/-- Frame encoding: the bytes handle_client emits on the socket for one
    packet read from the TUN device: a 4-byte length word in network
    order, then the payload (tunnel_server.c, TUN-to-client direction). -/
def encodeFrame (p : List Nat) : List Nat := toBE32 p.length ++ p

/-- One recv call on the chunked stream: it returns at most n bytes of
    the currently available data (the head chunk), together with the
    stream that remains.  An empty result models recv returning 0 or
    failing with EAGAIN on a non-blocking socket. -/
def recvOnce : List (List Nat) → Nat → List Nat × List (List Nat)
  | [], _ => ([], [])
  | c :: cs, n => (c.take n, if c.length ≤ n then cs else c.drop n :: cs)

/-- Modelled from the spec, section 4.3: the looping read that keeps
    receiving until n bytes are obtained or the stream ends.  Used only
    to compare the source's single-call reads against the spec's words. -/
def recvLoop : List (List Nat) → Nat → List Nat × List (List Nat)
  | [], _ => ([], [])
  | c :: cs, n =>
    if n ≤ c.length then (c.take n, if c.length ≤ n then cs else c.drop n :: cs)
    else
      let r := recvLoop cs (n - c.length)
      (c ++ r.1, r.2)

/-- Outcome of one client-to-interface iteration of the forwarding loop. -/
inductive DecodeResult where
  /-- recv returned no bytes for the length word: disconnect or error,
      the loop breaks. -/
  | eof : DecodeResult
  /-- recv returned 1 to 3 bytes for the 4-byte length word.  The C code
      does not detect this: it proceeds with a length value whose missing
      bytes are uninitialised stack memory, so the resulting value is
      unspecified and the embedding stops at this marker. -/
  | shortLenWord : List Nat → List (List Nat) → DecodeResult
  /-- Declared length 0 or above 65535: the frame is dropped and the loop
      continues with the rest of the stream (the connection stays open). -/
  | framingError : Nat → List (List Nat) → DecodeResult
  /-- The payload recv returned no bytes: the loop continues. -/
  | payloadPause : List (List Nat) → DecodeResult
  /-- Payload bytes forwarded to the TUN device, and the rest of the
      stream. -/
  | packet : List Nat → List (List Nat) → DecodeResult
deriving Repr, DecidableEq

/-- The frame-decode step of handle_client (tunnel_server.c,
    client-to-TUN direction): one recv of 4 bytes for the length word,
    ntohl, the bounds check, then one recv of the declared byte count for
    the payload; whatever that single call returns is forwarded. -/
def decodeStep (chunks : List (List Nat)) : DecodeResult :=
  let pr := recvOnce chunks 4
  if pr.1.length = 0 then .eof
  else if pr.1.length < 4 then .shortLenWord pr.1 pr.2
  else
    -- packet_length = ntohl(packet_length);
    let plen := be32v pr.1
    -- if (packet_length > 65535 || packet_length == 0) continue;
    if 65535 < plen ∨ plen = 0 then .framingError plen pr.2
    else
      let pd := recvOnce pr.2 plen
      if pd.1.length = 0 then .payloadPause pd.2
      else .packet pd.1 pd.2

/-- Fuel-bounded model of the client-to-interface direction of the
    forwarding loop: eof and the unspecified short-length case stop,
    framing errors and payload pauses continue with the rest of the
    stream, decoded payloads are collected in order. -/
def forwardLoop : Nat → List (List Nat) → List (List Nat)
  | 0, _ => []
  | fuel + 1, chunks =>
    match decodeStep chunks with
    | .eof => []
    | .shortLenWord _ _ => []
    | .framingError _ rest => forwardLoop fuel rest
    | .payloadPause rest => forwardLoop fuel rest
    | .packet pkt rest => pkt :: forwardLoop fuel rest

/- ----------------------------------------------------------------------
   handle_client resource release (tunnel_server.c).  The session's exit
   paths and the close/free calls each one performs, taken from the
   source's return sites. -/

/-- Resource-release actions of a client session. -/
inductive Action where
  | closeTun : Action
  | closeSock : Action
  | freeSession : Action
deriving Repr, DecidableEq

/-- Exit paths of handle_client. -/
inductive ExitPath where
  /-- create_tun_device returned -1 (open failed, or the configuring
      ioctl failed, in which case create_tun_device already closed the
      descriptor it opened); no TUN handle is held at this exit. -/
  | createFail : ExitPath
  /-- configure_tun_device failed. -/
  | configFail : ExitPath
  /-- A non-would-block I/O failure (select, recv, send, read) broke the
      forwarding loop. -/
  | ioFailure : ExitPath
  /-- recv returned 0 on the length word: the peer disconnected. -/
  | peerDisconnect : ExitPath
  /-- The running flag was cleared by the signal handler. -/
  | shutdown : ExitPath
deriving Repr, DecidableEq

/-- Whether the session holds an open TUN handle when it exits. -/
def tunOpened : ExitPath → Bool
  | .createFail => false
  | _ => true

/-- The release actions handle_client performs on each exit path, read
    off the source: the create-failure return closes the socket and
    frees the session state; the configure-failure return and the common
    cleanup after the forwarding loop also close the TUN handle. -/
def sessionCleanup : ExitPath → List Action
  | .createFail => [.closeSock, .freeSession]
  | .configFail => [.closeTun, .closeSock, .freeSession]
  | .ioFailure => [.closeTun, .closeSock, .freeSession]
  | .peerDisconnect => [.closeTun, .closeSock, .freeSession]
  | .shutdown => [.closeTun, .closeSock, .freeSession]

lemma getElem?_eq_some_byteAt (l : List Nat) (i : Nat) (h : i < l.length) :
    l[i]? = some (byteAt l i) := by
  rw [byteAt, List.getD_eq_getElem?_getD, List.getElem?_eq_getElem h]
  rfl

/-- Characterisation of pkt_parse: the branch structure of the source,
    with every field written through the total byte view.  All parser
    claims are derived from this single lemma. -/
lemma pkt_parse_spec (buf : List Nat) :
    pkt_parse buf =
      if buf.length < 20 then some (0, pkt_info.zero)
      else if byteAt buf 0 / 16 ≠ 4 then some (0, pkt_info.zero)
      else if buf.length < byteAt buf 0 % 16 * 4 then some (0, pkt_info.zero)
      else if byteAt buf 9 ≠ 6 then some (1, ipInfoOf buf)
      else if buf.length < byteAt buf 0 % 16 * 4 + 20 then some (1, ipInfoOf buf)
      else some (1, tcpInfoOf buf) := by
  unfold pkt_parse
  by_cases h20 : buf.length < 20
  · simp only [if_pos h20]
  · have hlen : 20 ≤ buf.length := Nat.le_of_not_lt h20
    simp only [if_neg h20]
    rw [getElem?_eq_some_byteAt buf 0 (by omega),
        getElem?_eq_some_byteAt buf 12 (by omega),
        getElem?_eq_some_byteAt buf 13 (by omega),
        getElem?_eq_some_byteAt buf 14 (by omega),
        getElem?_eq_some_byteAt buf 15 (by omega),
        getElem?_eq_some_byteAt buf 16 (by omega),
        getElem?_eq_some_byteAt buf 17 (by omega),
        getElem?_eq_some_byteAt buf 18 (by omega),
        getElem?_eq_some_byteAt buf 19 (by omega),
        getElem?_eq_some_byteAt buf 9 (by omega)]
    by_cases hv : byteAt buf 0 / 16 ≠ 4
    · simp only [if_pos hv]
    · simp only [if_neg hv]
      by_cases hihl : buf.length < byteAt buf 0 % 16 * 4
      · simp only [if_pos hihl]
      · simp only [if_neg hihl]
        by_cases hp : byteAt buf 9 ≠ 6
        · simp only [if_pos hp]
          rfl
        · simp only [if_neg hp]
          by_cases htl : buf.length < byteAt buf 0 % 16 * 4 + 20
          · simp only [if_pos htl]
            rfl
          · simp only [if_neg htl]
            rw [getElem?_eq_some_byteAt buf (byteAt buf 0 % 16 * 4) (by omega),
                getElem?_eq_some_byteAt buf (byteAt buf 0 % 16 * 4 + 1) (by omega),
                getElem?_eq_some_byteAt buf (byteAt buf 0 % 16 * 4 + 2) (by omega),
                getElem?_eq_some_byteAt buf (byteAt buf 0 % 16 * 4 + 3) (by omega),
                getElem?_eq_some_byteAt buf (byteAt buf 0 % 16 * 4 + 12) (by omega)]
            rfl

lemma toBE32_length (n : Nat) : (toBE32 n).length = 4 := rfl

lemma be32v_toBE32 (n : Nat) (h : n < 4294967296) : be32v (toBE32 n) = n := by
  simp only [be32v, toBE32, List.foldl]
  omega

/-- Decoding the chunked stream that carries one whole encoded frame in a
    single chunk yields exactly the frame's payload.  Shared by the
    round-trip and framing-error theorems. -/
lemma decode_encode (p : List Nat) (h1 : 1 ≤ p.length) (h2 : p.length ≤ 65535) :
    decodeStep [encodeFrame p] = DecodeResult.packet p [] := by
  have ht : (toBE32 p.length ++ p).take 4 = toBE32 p.length := List.take_left' rfl
  have hd : (toBE32 p.length ++ p).drop 4 = p := List.drop_left' rfl
  have hl : (toBE32 p.length ++ p).length = 4 + p.length := by
    simp [toBE32]; omega
  have hv : be32v (toBE32 p.length) = p.length := be32v_toBE32 _ (by omega)
  simp only [decodeStep, encodeFrame, recvOnce, ht, hd, hl, hv, toBE32_length]
  rw [if_neg (show ¬(4 : Nat) = 0 by decide),
      if_neg (show ¬(4 : Nat) < 4 by decide),
      if_neg (show ¬(65535 < p.length ∨ p.length = 0) by omega)]
  have hif : (if 4 + p.length ≤ 4 then ([] : List (List Nat)) else [p]) = [p] :=
    if_neg (by omega)
  simp only [hif, recvOnce, List.take_length, if_pos (Nat.le_refl p.length)]
  rw [if_neg (show ¬p.length = 0 by omega)]

/-- A chunk that opens with a 4-byte length word declaring a length out of
    bounds produces a framing error that keeps the rest of the stream. -/
lemma decode_badLen (bad rest : List Nat) (hb : bad.length = 4)
    (hrest : 0 < rest.length)
    (hv : be32v bad = 0 ∨ 65535 < be32v bad) :
    decodeStep [bad ++ rest] = DecodeResult.framingError (be32v bad) [rest] := by
  have ht : (bad ++ rest).take 4 = bad := List.take_left' hb
  have hd : (bad ++ rest).drop 4 = rest := List.drop_left' hb
  have hl : (bad ++ rest).length = 4 + rest.length := by simp [hb]
  simp only [decodeStep, recvOnce, ht, hd, hl, hb]
  rw [if_neg (show ¬(4 : Nat) = 0 by decide),
      if_neg (show ¬(4 : Nat) < 4 by decide),
      if_pos (Or.symm hv),
      if_neg (show ¬(4 + rest.length ≤ 4) by omega)]

lemma forwardLoop_succ (fuel : Nat) (chunks : List (List Nat)) :
    forwardLoop (fuel + 1) chunks =
      match decodeStep chunks with
      | DecodeResult.eof => []
      | DecodeResult.shortLenWord _ _ => []
      | DecodeResult.framingError _ rest => forwardLoop fuel rest
      | DecodeResult.payloadPause rest => forwardLoop fuel rest
      | DecodeResult.packet pkt rest => pkt :: forwardLoop fuel rest := rfl

/-- Claim C1: pkt_parse never reads a byte at an offset beyond the
    validated length: in the embedding, where every byte access is a
    checked lookup and an out-of-bounds access lands in the none branch,
    the result is some for every buffer, so the out-of-bounds branch is
    unreachable. -/
theorem pkt_parse_no_oob (buf : List Nat) : (pkt_parse buf).isSome = true := by
  rw [pkt_parse_spec]
  split_ifs <;> rfl

/-- Claim C5: pkt_parse returns NotParsed (return code 0, all-zero
    output) when the length is below 20, or the declared version field is
    not 4, or the length is below the declared IP header length
    (header-length field times 4); in particular every buffer shorter
    than 20 bytes fails classification regardless of content. -/
theorem pkt_parse_notParsed (buf : List Nat)
    (h : buf.length < 20 ∨ byteAt buf 0 / 16 ≠ 4 ∨
         buf.length < byteAt buf 0 % 16 * 4) :
    pkt_parse buf = some (0, pkt_info.zero) := by
  rw [pkt_parse_spec]
  rcases h with h | h | h
  · rw [if_pos h]
  · by_cases h20 : buf.length < 20
    · rw [if_pos h20]
    · rw [if_neg h20, if_pos h]
  · by_cases h20 : buf.length < 20
    · rw [if_pos h20]
    · rw [if_neg h20]
      by_cases hv : byteAt buf 0 / 16 ≠ 4
      · rw [if_pos hv]
      · rw [if_neg hv, if_pos h]

theorem pkt_parse_notParsed_witness :
    (List.replicate 10 7).length < 20 ∧
    pkt_parse (List.replicate 10 7) = some (0, pkt_info.zero) :=
  ⟨by decide, pkt_parse_notParsed (List.replicate 10 7) (Or.inl (by decide))⟩

/-- Claim C6: on a buffer that passes the IPv4 checks, a non-TCP protocol
    byte, or fewer than 20 bytes left after the IP header, still yields
    success (return code 1) with is_ipv4 set and is_tcp clear. -/
theorem pkt_parse_nonTCP_success (buf : List Nat)
    (h20 : 20 ≤ buf.length)
    (hv : byteAt buf 0 / 16 = 4)
    (hihl : byteAt buf 0 % 16 * 4 ≤ buf.length)
    (h : byteAt buf 9 ≠ 6 ∨ buf.length < byteAt buf 0 % 16 * 4 + 20) :
    pkt_parse buf = some (1, ipInfoOf buf) ∧
    (ipInfoOf buf).is_ipv4 = true ∧ (ipInfoOf buf).is_tcp = false := by
  refine ⟨?_, rfl, rfl⟩
  rw [pkt_parse_spec, if_neg (by omega), if_neg (by omega), if_neg (by omega)]
  rcases h with h | h
  · rw [if_pos h]
  · by_cases hp : byteAt buf 9 ≠ 6
    · rw [if_pos hp]
    · rw [if_neg hp, if_pos h]

theorem pkt_parse_nonTCP_success_witness :
    pkt_parse udpPacket = some (1, ipInfoOf udpPacket) ∧
    (ipInfoOf udpPacket).is_ipv4 = true ∧ (ipInfoOf udpPacket).is_tcp = false :=
  pkt_parse_nonTCP_success udpPacket (by decide) (by decide) (by decide)
    (Or.inl (by decide))

/-- Claim C7: on the 40-byte IPv4/TCP sample (version 4, header-length
    field 5, protocol TCP, TCP data-offset field 5, source port 1234,
    destination port 25) pkt_parse succeeds with both flags set, both
    header lengths 20, and the ports/addresses kept verbatim in wire
    order (their big-endian wire-byte values, no byte-order conversion). -/
theorem pkt_parse_testPacket :
    pkt_parse testPacket =
      some (1, ⟨true, true, be32 192 168 1 1, be32 192 168 1 2,
                1234, 25, 20, 20⟩) := by decide

/-- Claim C9: in every possible pkt_parse result, is_tcp set implies
    is_ipv4 set. -/
theorem pkt_parse_tcp_implies_ipv4 (buf : List Nat) (r : Nat)
    (info : pkt_info) (h : pkt_parse buf = some (r, info))
    (ht : info.is_tcp = true) : info.is_ipv4 = true := by
  rw [pkt_parse_spec] at h
  split_ifs at h
  all_goals simp only [Option.some.injEq, Prod.mk.injEq] at h
  all_goals obtain ⟨h1, h2⟩ := h
  all_goals subst h2
  all_goals
    first
    | rfl
    | simp [pkt_info.zero, ipInfoOf] at ht

theorem pkt_parse_tcp_implies_ipv4_witness :
    (⟨true, true, be32 192 168 1 1, be32 192 168 1 2,
      1234, 25, 20, 20⟩ : pkt_info).is_ipv4 = true :=
  pkt_parse_tcp_implies_ipv4 testPacket 1 _ (by decide) (by decide)

/-- Claim C10: pkt_parse does not enforce the lower bound 5 of the
    header-length fields: a version-4 buffer of length at least 20 whose
    IP header-length field is below 5 still classifies successfully and
    reports ip_header_len equal to the field times 4, below 20; and on
    the concrete 20-byte TCP packet with both fields 0 it reports
    ip_header_len 0 and tcp_header_len 0, the data-offset field being
    copied without validation. -/
theorem pkt_parse_no_lower_bound :
    (∀ buf : List Nat, 20 ≤ buf.length → byteAt buf 0 / 16 = 4 →
        byteAt buf 0 % 16 < 5 →
        ∃ info : pkt_info, pkt_parse buf = some (1, info) ∧
          info.is_ipv4 = true ∧
          info.ip_header_len = byteAt buf 0 % 16 * 4 ∧
          info.ip_header_len < 20) ∧
    pkt_parse lowHLPacket = some (1, ⟨true, true, 0, 0, 16384, 0, 0, 0⟩) := by
  constructor
  · intro buf h20 hv hl
    have hip : (ipInfoOf buf).ip_header_len = byteAt buf 0 % 16 * 4 := rfl
    have htc : (tcpInfoOf buf).ip_header_len = byteAt buf 0 % 16 * 4 := rfl
    rw [pkt_parse_spec, if_neg (by omega), if_neg (by omega), if_neg (by omega)]
    by_cases hp : byteAt buf 9 ≠ 6
    · rw [if_pos hp]
      exact ⟨ipInfoOf buf, rfl, rfl, hip, by omega⟩
    · rw [if_neg hp]
      by_cases htl : buf.length < byteAt buf 0 % 16 * 4 + 20
      · rw [if_pos htl]
        exact ⟨ipInfoOf buf, rfl, rfl, hip, by omega⟩
      · rw [if_neg htl]
        exact ⟨tcpInfoOf buf, rfl, rfl, htc, by omega⟩
  · decide

theorem pkt_parse_no_lower_bound_witness :
    ∃ info : pkt_info, pkt_parse hl3Packet = some (1, info) ∧
      info.is_ipv4 = true ∧
      info.ip_header_len = byteAt hl3Packet 0 % 16 * 4 ∧
      info.ip_header_len < 20 :=
  pkt_parse_no_lower_bound.1 hl3Packet (by decide) (by decide) (by decide)

/-- Claim C3: round-trip law of the framing protocol: a payload of length
    1 to 65535, encoded as one frame and presented to the decode step of
    the forwarding loop, is decoded back as exactly the same bytes, with
    nothing left over. -/
theorem encode_decode_roundtrip (p : List Nat) (h1 : 1 ≤ p.length)
    (h2 : p.length ≤ 65535) :
    decodeStep [encodeFrame p] = DecodeResult.packet p [] :=
  decode_encode p h1 h2

theorem encode_decode_roundtrip_witness :
    decodeStep [encodeFrame [170]] = DecodeResult.packet [170] [] :=
  encode_decode_roundtrip [170] (by decide) (by decide)

/-- Claim C4: a 4-byte length word declaring 0 or more than 65535 is a
    framing error that discards only the malformed word and keeps the
    connection open, and the next well-formed frame on the same stream is
    still decoded and forwarded. -/
theorem framingError_keeps_connection (bad p : List Nat)
    (hb : bad.length = 4) (hv : be32v bad = 0 ∨ 65535 < be32v bad)
    (h1 : 1 ≤ p.length) (h2 : p.length ≤ 65535) :
    decodeStep [bad ++ encodeFrame p] =
      DecodeResult.framingError (be32v bad) [encodeFrame p] ∧
    forwardLoop 2 [bad ++ encodeFrame p] = [p] := by
  have hel : 0 < (encodeFrame p).length := by
    simp [encodeFrame, toBE32]
  have hstep := decode_badLen bad (encodeFrame p) hb hel hv
  refine ⟨hstep, ?_⟩
  rw [show (2 : Nat) = 1 + 1 from rfl, forwardLoop_succ, hstep]
  show forwardLoop (0 + 1) [encodeFrame p] = [p]
  rw [forwardLoop_succ, decode_encode p h1 h2]
  rfl

theorem framingError_keeps_connection_witness :
    decodeStep [[0, 0, 0, 0] ++ encodeFrame [7]] =
      DecodeResult.framingError (be32v [0, 0, 0, 0]) [encodeFrame [7]] ∧
    forwardLoop 2 [[0, 0, 0, 0] ++ encodeFrame [7]] = [[7]] :=
  framingError_keeps_connection [0, 0, 0, 0] [7] (by decide)
    (Or.inl (by decide)) (by decide) (by decide)

/-- Claim C2, counterexample: on a stream that delivers the 4-byte length
    word in two parts (2 bytes at the first recv, the rest later), the
    decode step of handle_client does not keep reading until the word is
    complete: it proceeds after a single recv with only 2 of the 4 bytes
    (filling the rest of the length value from uninitialised memory),
    even though the stream holds the full word, as the spec's looping
    reader recvLoop shows by obtaining all 4 bytes. -/
theorem decode_lenWord_not_looped :
    decodeStep [[0, 0], [0, 0, 0, 5, 9]] =
      DecodeResult.shortLenWord [0, 0] [[0, 0, 0, 5, 9]] ∧
    (recvLoop [[0, 0], [0, 0, 0, 5, 9]] 4).1 = [0, 0, 0, 0] := by decide

/-- Claim C2, amended: frame decode issues exactly one receive call per
    phase.  If the single recv for the length word returns 1 to 3 bytes,
    decode proceeds with the incomplete word instead of reading again;
    if the single recv for the payload returns fewer bytes than the
    declared length, only those bytes are forwarded as the packet. -/
theorem decode_single_recv :
    (∀ (c : List Nat) (cs : List (List Nat)), 0 < c.length → c.length < 4 →
      decodeStep (c :: cs) = DecodeResult.shortLenWord c cs) ∧
    (∀ (n : Nat) (c : List Nat) (cs : List (List Nat)),
      1 ≤ n → n ≤ 65535 → 0 < c.length → c.length < n →
      decodeStep (toBE32 n :: c :: cs) = DecodeResult.packet c cs) := by
  constructor
  · intro c cs hc0 hc4
    have ht : c.take 4 = c := List.take_of_length_le (by omega)
    simp only [decodeStep, recvOnce, ht]
    rw [if_pos (show c.length ≤ 4 by omega),
        if_neg (show ¬c.length = 0 by omega), if_pos hc4]
  · intro n c cs hn1 hn2 hc0 hcn
    have ht : (toBE32 n).take 4 = toBE32 n :=
      List.take_of_length_le (le_of_eq (toBE32_length n))
    have hc : c.take n = c := List.take_of_length_le (by omega)
    have hv : be32v (toBE32 n) = n := be32v_toBE32 n (by omega)
    have hro : ∀ (d : List Nat) (ds : List (List Nat)) (m : Nat),
        recvOnce (d :: ds) m =
          (d.take m, if d.length ≤ m then ds else d.drop m :: ds) :=
      fun _ _ _ => rfl
    simp only [decodeStep, hro, ht, hc, hv, toBE32_length]
    rw [if_pos (show (4 : Nat) ≤ 4 by decide),
        if_neg (show ¬(4 : Nat) = 0 by decide),
        if_neg (show ¬(4 : Nat) < 4 by decide),
        if_neg (show ¬(65535 < n ∨ n = 0) by omega)]
    simp only [hro, hc]
    rw [if_pos (show c.length ≤ n by omega),
        if_neg (show ¬c.length = 0 by omega)]

theorem decode_single_recv_witness :
    decodeStep [[1]] = DecodeResult.shortLenWord [1] [] ∧
    decodeStep [toBE32 3, [9]] = DecodeResult.packet [9] [] :=
  ⟨decode_single_recv.1 [1] [] (by decide) (by decide),
   decode_single_recv.2 3 [9] [] (by decide) (by decide) (by decide)
     (by decide)⟩

/-- Claim C8: on every exit path of handle_client, the socket is closed
    and the session state freed, and whenever the session holds an open
    TUN handle at exit, that handle is closed too. -/
theorem handle_client_releases_all (e : ExitPath) :
    Action.closeSock ∈ sessionCleanup e ∧
    Action.freeSession ∈ sessionCleanup e ∧
    (tunOpened e = true → Action.closeTun ∈ sessionCleanup e) := by
  cases e
  case createFail => exact ⟨by decide, by decide, fun h => absurd h (by decide)⟩
  all_goals exact ⟨by decide, by decide, fun _ => by decide⟩

theorem handle_client_releases_all_witness :
    Action.closeTun ∈ sessionCleanup ExitPath.ioFailure :=
  (handle_client_releases_all ExitPath.ioFailure).2.2 rfl

end NetRewire
